import Mathlib

/-!
Shallow embedding of the tennis-app data pipeline:
data cleaning (`data-cleaners.ts`), validation (`data-validator`),
live formatting (`live-data-formatter.ts`), CSV loading and analytics
(`local-dataset`).  JavaScript strings are Lean `String`s, JS numbers in
score positions are `Int`, absent/`undefined`/`null` values are `Option`,
and values whose runtime type can be number, string or something else are
the inductive `RawVal`.  Date strings are represented by their parse
result (`Option Int` = epoch millis, `none` = invalid date).
-/

/-! ## JS-style string helpers -/

/-- JS `String.prototype.trim` (kernel-computable, over the character list). -/
def jsTrim (s : String) : String :=
  String.mk (((s.data.dropWhile Char.isWhitespace).reverse.dropWhile Char.isWhitespace).reverse)

/-- JS `String.prototype.toLowerCase` (ASCII case folding). -/
def jsToLower (s : String) : String :=
  String.mk (s.data.map Char.toLower)

/-- Split a character list on a (non-empty) separator sequence; the fuel
argument (any value ≥ the list length) makes the recursion structural. -/
def listSplitOn (sep : List Char) : Nat → List Char → List (List Char)
  | _, [] => [[]]
  | 0, l => [l]
  | fuel + 1, c :: cs =>
    if sep.isPrefixOf (c :: cs) && !sep.isEmpty then
      -- the match consumes `sep.length ≥ 1` characters of `c :: cs`
      [] :: listSplitOn sep fuel (cs.drop (sep.length - 1))
    else
      match listSplitOn sep fuel cs with
      | [] => [[c]]
      | h :: t => (c :: h) :: t

/-- JS `s.split(sep)` for a non-empty string separator. -/
def jsSplitOn (s sep : String) : List String :=
  (listSplitOn sep.data s.data.length s.data).map String.mk

/-- JS `s.startsWith(pat)`. -/
def strStartsWith (s pat : String) : Bool :=
  pat.data.isPrefixOf s.data

/-- JS `s.endsWith(pat)`. -/
def strEndsWith (s pat : String) : Bool :=
  pat.data.isSuffixOf s.data

/-- Digits of a decimal string prefix folded to a `Nat`. -/
def digitsToNat (l : List Char) : Nat :=
  l.foldl (fun a c => a * 10 + (c.toNat - 48)) 0

/-- JS `parseInt(s, 10)`: skip whitespace, optional sign, leading digit run;
`NaN` (here `none`) when no digit follows. -/
def jsParseInt (s : String) : Option Int :=
  let cs := (jsTrim s).data
  let signed : Int × List Char :=
    match cs with
    | c :: t => if c = '-' then (-1, t) else if c = '+' then (1, t) else (1, cs)
    | [] => (1, [])
  let ds := signed.2.takeWhile Char.isDigit
  if ds.isEmpty then none else some (signed.1 * (digitsToNat ds : Int))

/-- Substring test on character lists (JS `String.prototype.includes`). -/
def listContainsSub (s pat : List Char) : Bool :=
  match s with
  | [] => pat.isEmpty
  | _ :: tl => pat.isPrefixOf s || listContainsSub tl pat

/-- JS `s.includes(pat)`. -/
def strContains (s pat : String) : Bool :=
  listContainsSub s.data pat.data

/-- Case-insensitive global replace on character lists, mirroring
`s.replace(new RegExp(pat, "gi"), rep)` for a plain-text pattern:
scan left to right, replace each case-insensitive occurrence, continue
after the consumed portion. -/
def ciReplace (s : List Char) (pat : List Char) (rep : List Char) : List Char :=
  match s with
  | [] => []
  | c :: cs =>
    if (pat.map Char.toLower).isPrefixOf ((c :: cs).map Char.toLower) && !pat.isEmpty then
      -- consuming `pat.length` characters of `c :: cs`; the guard makes it ≥ 1
      rep ++ ciReplace (cs.drop (pat.length - 1)) pat rep
    else
      c :: ciReplace cs pat rep
termination_by s.length
decreasing_by
  all_goals simp only [List.length_drop, List.length_cons]
  all_goals omega

/-- Truthiness of an optional JS string (`undefined`, `null` and `""` are falsy). -/
def truthyS (o : Option String) : Bool :=
  !((o.getD "") == "")

/-! ## Raw (pre-cleaning) shapes, from `data-cleaners.ts` usage -/

/-- A dynamically-typed JS value in a score cell: a number, a string, or
anything else (`undefined`, `null`, objects, ... — everything `parseScore`
maps to `null`). -/
inductive RawVal
  | vnum (n : Int)
  | vstr (s : String)
  | vnone
  deriving DecidableEq, Repr

structure RawGames where
  player1 : RawVal
  player2 : RawVal
  deriving DecidableEq, Repr

structure RawSetObj where
  player1 : RawVal
  player2 : RawVal
  tiebreak : Option RawGames
  deriving DecidableEq, Repr

structure RawScoreObj where
  /-- `none` models `sets` absent or not an array. -/
  sets : Option (List (Option RawSetObj))
  games : Option RawGames
  currentSet : Option RawGames
  deriving DecidableEq, Repr

structure RawTournament where
  id : Option String
  name : Option String
  category : Option String
  surface : Option String
  location : Option String
  city : Option String
  country : Option String
  startDate : Option (Option Int)
  endDate : Option (Option Int)
  level : Option String
  deriving DecidableEq, Repr

structure RawPlayer where
  id : Option String
  name : Option String
  nationality : Option String
  country : Option String
  countryCode : Option String
  country_code : Option String
  abbreviation : Option String
  ranking : RawVal
  age : RawVal
  height : RawVal
  weight : RawVal
  handedness : Option String
  seedNumber : RawVal
  deriving DecidableEq, Repr

structure LiveInd where
  serving : Option Int
  setPoint : Option Bool
  matchPoint : Option Bool
  breakPoint : Option Bool
  deriving DecidableEq, Repr

def LiveInd.empty : LiveInd := ⟨none, none, none, none⟩

structure RawMatch where
  id : Option String
  tournament : Option RawTournament
  round : Option String
  status : Option String
  /-- `none` models `players` absent or not an array; elements may be `null`. -/
  players : Option (List (Option RawPlayer))
  score : Option RawScoreObj
  startTime : Option (Option Int)
  endTime : Option (Option Int)
  court : Option String
  liveIndicators : Option LiveInd
  deriving DecidableEq, Repr

/-- The empty raw object `{}`. -/
def RawMatch.empty : RawMatch :=
  ⟨none, none, none, none, none, none, none, none, none, none⟩

structure DataCleaningOptions where
  fillMissingData : Option Bool := none
  validateScores : Option Bool := none
  normalizeName : Option Bool := none
  defaultLocation : Option String := none
  deriving DecidableEq, Repr

/-- Environment for the two impure leaves of `cleanMatch`
(`generateMatchId` uses `Date.now`/`Math.random`; the default tournament
stamps `new Date()`). -/
structure CleanEnv where
  genId : String
  nowDate : Int
  deriving DecidableEq, Repr

/-! ## Canonical (cleaned) shapes -/

structure CGames where
  player1 : Int
  player2 : Int
  deriving DecidableEq, Repr

structure CSet where
  player1 : Int
  player2 : Int
  tiebreak : Option CGames
  deriving DecidableEq, Repr

structure CScore where
  sets : List CSet
  games : Option CGames
  currentSet : Option CGames
  deriving DecidableEq, Repr

structure CTournament where
  id : String
  name : String
  category : String
  surface : String
  location : String
  city : Option String
  country : Option String
  startDate : Option Int
  endDate : Option Int
  level : Option String
  deriving DecidableEq, Repr

structure CPlayer where
  id : String
  name : String
  nationality : String
  countryCode : String
  abbreviation : Option String
  ranking : Option Int
  age : Option Int
  height : Option Int
  weight : Option Int
  handedness : Option String
  seedNumber : Option Int
  deriving DecidableEq, Repr

structure CMatch where
  id : String
  tournament : CTournament
  round : String
  status : String
  players : List CPlayer
  score : Option CScore
  startTime : Option Int
  endTime : Option Int
  court : Option String
  liveIndicators : LiveInd
  deriving DecidableEq, Repr

/-! ## `TennisDataCleaner` helpers -/

/-- `cleanString`: strings are trimmed, `""` and non-strings become `undefined`. -/
def cleanString (value : Option String) : Option String :=
  match value with
  | some s => let c := jsTrim s; if c = "" then none else some c
  | none => none

/-- `cleanNumber`: numbers pass through, strings are `parseInt`ed, the rest is `undefined`. -/
def cleanNumber (value : RawVal) : Option Int :=
  match value with
  | .vnum n => some n
  | .vstr s => jsParseInt (jsTrim s)
  | .vnone => none

/-- `cleanTimestamp`: falsy input or an invalid date yields `undefined`,
otherwise the parsed instant (standing for its ISO string). -/
def cleanTimestamp (value : Option (Option Int)) : Option Int :=
  value.bind id

/-- `cleanRanking`: a cleaned number kept only when truthy and positive. -/
def cleanRanking (ranking : RawVal) : Option Int :=
  match cleanNumber ranking with
  | some n => if n ≠ 0 ∧ n > 0 then some n else none
  | none => none

/-- `parseScore`: numbers pass through; trimmed strings `""`, `"-"`, `"N/A"`
and non-numeric strings are `null`; everything else is `null`. -/
def parseScore (score : RawVal) : Option Int :=
  match score with
  | .vnum n => some n
  | .vstr s =>
    let cleaned := jsTrim s
    if cleaned = "" ∨ cleaned = "-" ∨ cleaned = "N/A" then none
    else jsParseInt cleaned
  | .vnone => none

/-- The `status.toString().toLowerCase().trim()` lookup key. -/
def normalizeKey (s : String) : String := jsTrim (jsToLower s)

/-- `normalizeStatus`: case-insensitive vocabulary lookup, default `"scheduled"`. -/
def normalizeStatus (status : Option String) : String :=
  match status with
  | none => "scheduled"
  | some st =>
    if st = "" then "scheduled" else
    if normalizeKey st = "ft" then "completed"
    else if normalizeKey st = "finished" then "completed"
    else if normalizeKey st = "final" then "completed"
    else if normalizeKey st = "ended" then "completed"
    else if normalizeKey st = "live" then "live"
    else if normalizeKey st = "inprogress" then "live"
    else if normalizeKey st = "in progress" then "live"
    else if normalizeKey st = "scheduled" then "scheduled"
    else if normalizeKey st = "upcoming" then "scheduled"
    else if normalizeKey st = "cancelled" then "cancelled"
    else if normalizeKey st = "canceled" then "cancelled"
    else if normalizeKey st = "walkover" then "walkover"
    else if normalizeKey st = "wo" then "walkover"
    else if normalizeKey st = "retired" then "retired"
    else if normalizeKey st = "ret" then "retired"
    else "scheduled"

/-- `normalizeCategory`: known categories are canonicalized, anything else
passes through as the original string. -/
def normalizeCategory (category : Option String) : String :=
  match category with
  | none => "Unknown"
  | some c =>
    if c = "" then "Unknown" else
    if normalizeKey c = "atp" then "ATP"
    else if normalizeKey c = "wta" then "WTA"
    else if normalizeKey c = "challenger" then "Challenger"
    else if normalizeKey c = "itf" then "ITF"
    else if normalizeKey c = "exhibition" then "Exhibition"
    else c

/-- `normalizeSurface`: known surfaces are canonicalized, absent is `"Hard"`,
anything else passes through as the original string. -/
def normalizeSurface (surface : Option String) : String :=
  match surface with
  | none => "Hard"
  | some s =>
    if s = "" then "Hard" else
    if normalizeKey s = "hard" then "Hard"
    else if normalizeKey s = "hardcourt" then "Hard"
    else if normalizeKey s = "clay" then "Clay"
    else if normalizeKey s = "red clay" then "Clay"
    else if normalizeKey s = "grass" then "Grass"
    else if normalizeKey s = "indoor" then "Indoor"
    else if normalizeKey s = "carpet" then "Carpet"
    else s

/-- `normalizeHandedness`. -/
def normalizeHandedness (handedness : Option String) : Option String :=
  match handedness with
  | none => none
  | some h =>
    if h = "" then none else
    let hand := jsTrim (jsToLower h)
    if strContains hand "left" ∨ hand = "l" then some "left"
    else if strContains hand "right" ∨ hand = "r" then some "right"
    else none

/-- One step of the `truncationFixes` loop body: replace case-insensitively
when the lowercased current string contains the broken fragment. -/
def applyFix (cur : String) (broken fixed : String) : String :=
  if strContains (jsToLower cur) broken then
    String.mk (ciReplace cur.data broken.data fixed.data)
  else cur

/-- The `truncationFixes` table, in object-literal order. -/
def truncationFixes : List (String × String) :=
  [("rounament", "tournament"),
   ("tournamen", "tournament"),
   ("tourname", "tournament name"),
   ("champio", "championship"),
   ("masters ser", "masters series"),
   ("grand sl", "grand slam")]

/-- Last character of a string is a lowercase ASCII letter
(the effect of `/[a-z]$/.test(cleaned.slice(-3))`). -/
def endsLowercase (s : String) : Bool :=
  match s.data.getLast? with
  | some c => decide ('a' ≤ c ∧ c ≤ 'z')
  | none => false

/-- The trim plus `truncationFixes` pass of `cleanTournamentName`. -/
def fixedName (nm : String) : String :=
  truncationFixes.foldl (fun c p => applyFix c p.1 p.2) (jsTrim nm)

/-- `cleanTournamentName`. -/
def cleanTournamentName (name : Option String) : String :=
  match name with
  | none => "Unknown Tournament"
  | some nm =>
    if nm = "" then "Unknown Tournament" else
    if (fixedName nm).length < 5 ∨ strEndsWith (fixedName nm) " " ∨ endsLowercase (fixedName nm) then
      if ¬(strContains (fixedName nm) "Tournament"
          ∨ strContains (fixedName nm) "Championship"
          ∨ strContains (fixedName nm) "Open") then
        fixedName nm ++ " Tournament"
      else fixedName nm
    else fixedName nm

/-- `matchesBulletSurface`: does the regex
`\s*•\s*(Hard|Clay|Grass|Indoor|Carpet).*$` match starting here? -/
def matchesBulletSurface (l : List Char) : Bool :=
  let l1 := l.dropWhile Char.isWhitespace
  match l1 with
  | b :: rest =>
    b = '•' &&
      (["hard", "clay", "grass", "indoor", "carpet"].any fun w =>
        w.data.isPrefixOf ((rest.dropWhile Char.isWhitespace).map Char.toLower))
  | [] => false

/-- Delete everything from the first bullet-surface occurrence to the end
(the `replace(/\s*•\s*(Hard|...).*$/i, '')` step). -/
def stripSurfaceTail : List Char → List Char
  | [] => []
  | c :: cs => if matchesBulletSurface (c :: cs) then [] else c :: stripSurfaceTail cs

/-- `cleanLocation` with its fallback chain. -/
def cleanLocation (location city country fallback : Option String) : String :=
  if truthyS city ∧ truthyS country then
    jsTrim (city.getD "") ++ ", " ++ jsTrim (country.getD "")
  else if truthyS city then jsTrim (city.getD "")
  else if truthyS country then jsTrim (country.getD "")
  else if truthyS location then
    let cleaned := jsTrim (location.getD "")
    if strStartsWith cleaned "," ∨ strStartsWith cleaned "•" ∨ cleaned = "" then
      if truthyS fallback then fallback.getD "" else "Unknown Location"
    else
      let stripped := jsTrim (String.mk (stripSurfaceTail cleaned.data))
      if stripped ≠ "" then stripped
      else if truthyS fallback then fallback.getD "" else "Unknown Location"
  else if truthyS fallback then fallback.getD "" else "Unknown Location"

/-- `inferTournamentLevel` (runs on the raw category string). -/
def inferTournamentLevel (category name : Option String) : Option String :=
  match category, name with
  | some cat, some nm =>
    if cat = "" ∨ nm = "" then none else
    let lowerName := jsToLower nm
    if strContains lowerName "grand slam" ∨ strContains lowerName "wimbledon"
        ∨ strContains lowerName "us open" ∨ strContains lowerName "french open"
        ∨ strContains lowerName "australian open" then
      some "Grand Slam"
    else if strContains lowerName "masters" ∧ cat = "ATP" then
      some "Masters 1000"
    else if cat = "ATP" ∧ strContains lowerName "500" then some "ATP 500"
    else if cat = "ATP" ∧ strContains lowerName "250" then some "ATP 250"
    else if cat = "WTA" ∧ strContains lowerName "1000" then some "WTA 1000"
    else if cat = "WTA" ∧ strContains lowerName "500" then some "WTA 500"
    else if cat = "WTA" ∧ strContains lowerName "250" then some "WTA 250"
    else none
  | _, _ => none

/-- `createDefaultTournament`. -/
def createDefaultTournament (env : CleanEnv) (location : String) : CTournament :=
  { id := "unknown-tournament"
    name := "Unknown Tournament"
    category := "Unknown"
    surface := "Hard"
    location := location
    city := none
    country := none
    startDate := some env.nowDate
    endDate := some env.nowDate
    level := none }

/-- `cleanTournament`. -/
def cleanTournament (env : CleanEnv) (tournament : Option RawTournament)
    (defaultLocation : Option String) : CTournament :=
  match tournament with
  | none =>
    createDefaultTournament env
      (if truthyS defaultLocation then defaultLocation.getD "" else "Unknown Location")
  | some t =>
    { id := (cleanString t.id).getD "unknown-tournament"
      name := cleanTournamentName t.name
      category := normalizeCategory t.category
      surface := normalizeSurface t.surface
      location := cleanLocation t.location t.city t.country defaultLocation
      city := cleanString t.city
      country := cleanString t.country
      startDate := cleanTimestamp t.startDate
      endDate := cleanTimestamp t.endDate
      level :=
        if truthyS t.level then t.level
        else inferTournamentLevel t.category t.name }

/-- `cleanPlayerName`. -/
def cleanPlayerName (name : Option String) (playerNumber : Nat) (normalize : Bool) : String :=
  let fallback := "Player " ++ toString playerNumber
  match name with
  | none => fallback
  | some nm =>
    if nm = "" ∨ jsTrim nm = "" ∨ nm = "-" then fallback else
    let cleaned := jsTrim nm
    -- strip the flag-emoji / question-mark / replacement-character artifacts
    let cleaned := String.mk (ciReplace cleaned.data "🏳️".data "".data)
    let cleaned := String.mk (ciReplace cleaned.data "❓".data "".data)
    let cleaned := String.mk (ciReplace cleaned.data "�".data "".data)
    let cleaned := jsTrim cleaned
    let cleaned :=
      if normalize ∧ strContains cleaned ", "
          ∧ ¬strContains cleaned "Jr." ∧ ¬strContains cleaned "Sr." then
        match jsSplitOn cleaned ", " with
        | last :: first :: _ =>
          if first ≠ "" ∧ last ≠ "" then jsTrim first ++ " " ++ jsTrim last else cleaned
        | _ => cleaned
      else cleaned
    if cleaned = "" then fallback else cleaned

/-- `cleanNationality`. -/
def cleanNationality (nationality country : Option String) : String :=
  let value := if truthyS nationality then nationality else country
  match value with
  | none => "Unknown"
  | some v =>
    if v = "" ∨ jsTrim v = "" ∨ v = "Neutral" ∨ v = "N/A" ∨ v = "🏳️" then "Unknown"
    else jsTrim v

/-- `inferCountryCode`'s nationality → ISO-2 lookup table. -/
def inferCountryCode (nationality : String) : String :=
  if nationality = "Great Britain" then "GB"
  else if nationality = "United Kingdom" then "GB"
  else if nationality = "England" then "GB"
  else if nationality = "Scotland" then "GB"
  else if nationality = "Wales" then "GB"
  else if nationality = "United States" then "US"
  else if nationality = "USA" then "US"
  else if nationality = "America" then "US"
  else if nationality = "Czechia" then "CZ"
  else if nationality = "Czech Republic" then "CZ"
  else if nationality = "Russia" then "RU"
  else if nationality = "Russian Federation" then "RU"
  else if nationality = "Korea" then "KR"
  else if nationality = "South Korea" then "KR"
  else if nationality = "Taiwan" then "TW"
  else if nationality = "Chinese Taipei" then "TW"
  else "XX"

/-- The `^[A-Z]{2}$` shape test. -/
def isTwoUpper (s : String) : Bool :=
  s.length = 2 && s.data.all fun c => decide ('A' ≤ c ∧ c ≤ 'Z')

/-- `cleanCountryCode`. -/
def cleanCountryCode (countryCode altCode nationality : Option String) : String :=
  let code := if truthyS countryCode then countryCode else altCode
  let code :=
    if ¬truthyS code ∨ code = some "Neutral" ∨ code = some "N/A" ∨ code = some "XX"
        ∨ strContains (code.getD "") "🏳️" then
      match nationality with
      | some nat => if nat = "" then code else some (inferCountryCode nat)
      | none => code
    else code
  match code with
  | some c => if isTwoUpper c then c else "XX"
  | none => "XX"

/-- `createDefaultPlayer`. -/
def createDefaultPlayer (number : Nat) : CPlayer :=
  { id := "player-" ++ toString number
    name := "Player " ++ toString number
    nationality := "Unknown"
    countryCode := "XX"
    abbreviation := none
    ranking := none
    age := none
    height := none
    weight := none
    handedness := none
    seedNumber := none }

/-- `cleanPlayer`. -/
def cleanPlayer (player : Option RawPlayer) (playerNumber : Nat)
    (normalizeName : Bool) : CPlayer :=
  match player with
  | none => createDefaultPlayer playerNumber
  | some p =>
    { id := (cleanString p.id).getD ("player-" ++ toString playerNumber)
      name := cleanPlayerName p.name playerNumber normalizeName
      nationality := cleanNationality p.nationality p.country
      countryCode := cleanCountryCode p.countryCode p.country_code p.nationality
      abbreviation := cleanString p.abbreviation
      ranking := cleanRanking p.ranking
      age := cleanNumber p.age
      height := cleanNumber p.height
      weight := cleanNumber p.weight
      handedness := normalizeHandedness p.handedness
      seedNumber := cleanNumber p.seedNumber }

/-- `createDefaultPlayers`. -/
def createDefaultPlayers : List CPlayer :=
  [createDefaultPlayer 1, createDefaultPlayer 2]

/-- `cleanPlayers`: anything but a 2-element array yields the default pair. -/
def cleanPlayers (players : Option (List (Option RawPlayer)))
    (normalizeName : Bool) : List CPlayer :=
  match players with
  | none => createDefaultPlayers
  | some l =>
    if l.length ≠ 2 then createDefaultPlayers
    else (l.enum.map fun p => cleanPlayer p.2 (p.1 + 1) normalizeName)

/-- `cleanSet`: `null` when the set is falsy or both sides unparseable,
else each unparseable side coerced to 0. -/
def cleanSet (set : Option RawSetObj) : Option CSet :=
  match set with
  | none => none
  | some s =>
    let player1 := parseScore s.player1
    let player2 := parseScore s.player2
    if player1 = none ∧ player2 = none then none
    else some
      { player1 := player1.getD 0
        player2 := player2.getD 0
        tiebreak := s.tiebreak.map fun tb =>
          { player1 := (parseScore tb.player1).getD 0
            player2 := (parseScore tb.player2).getD 0 } }

/-- `cleanSets`. -/
def cleanSets (sets : Option (List (Option RawSetObj))) : List CSet :=
  match sets with
  | none => []
  | some l => (l.map cleanSet).filterMap id

/-- `cleanGames`. -/
def cleanGames (games : Option RawGames) : Option CGames :=
  match games with
  | none => none
  | some g =>
    let player1 := parseScore g.player1
    let player2 := parseScore g.player2
    if player1 = none ∧ player2 = none then none
    else some { player1 := player1.getD 0, player2 := player2.getD 0 }

/-- `cleanScore`: absent when there is nothing to report. -/
def cleanScore (score : Option RawScoreObj) : Option CScore :=
  match score with
  | none => none
  | some s =>
    let cleanedSets := cleanSets s.sets
    let cleanedGames := cleanGames s.games
    if cleanedSets = [] ∧ cleanedGames = none then none
    else some { sets := cleanedSets, games := cleanedGames, currentSet := cleanGames s.currentSet }

/-- `cleanMatch`, the cleaner's entry point. -/
def cleanMatch (env : CleanEnv) (rawMatch : RawMatch)
    (options : DataCleaningOptions) : CMatch :=
  let defaultLocation := some ((options.defaultLocation).getD "Unknown Location")
  let normalizeName := (options.normalizeName).getD true
  { id := (cleanString rawMatch.id).getD env.genId
    tournament := cleanTournament env rawMatch.tournament defaultLocation
    round := (cleanString rawMatch.round).getD "Round 1"
    status := normalizeStatus rawMatch.status
    players := cleanPlayers rawMatch.players normalizeName
    score := cleanScore rawMatch.score
    startTime := cleanTimestamp rawMatch.startTime
    endTime := cleanTimestamp rawMatch.endTime
    court := cleanString rawMatch.court
    liveIndicators := (rawMatch.liveIndicators).getD LiveInd.empty }

/-! ## `TennisDataValidator` (data-validator module)

The validator receives an `EnhancedMatch`-shaped value whose fields may
still be absent or of the wrong runtime type; string timestamps are again
represented by their `Date` parse result.  Each `validateX` helper returns
the `(errors, warnings)` it appends.  The one statement that can throw at
runtime (`score.sets.length` when `sets` is absent, in
`validateStatusConsistency`) is modelled with `Except`. -/

structure MatchValidation where
  isValid : Bool
  errors : List String
  warnings : List String
  dataQuality : String
  deriving DecidableEq, Repr

structure VGames where
  /-- `none` models a non-numeric runtime value. -/
  player1 : Option Int
  player2 : Option Int
  deriving DecidableEq, Repr

structure VSet where
  player1 : Option Int
  player2 : Option Int
  tiebreak : Option VGames
  deriving DecidableEq, Repr

structure VScore where
  /-- `none` models `sets` absent or not an array. -/
  sets : Option (List VSet)
  games : Option VGames
  deriving DecidableEq, Repr

structure VTournament where
  name : Option String
  category : Option String
  surface : Option String
  location : Option String
  deriving DecidableEq, Repr

structure VPlayer where
  name : Option String
  nationality : Option String
  countryCode : Option String
  ranking : RawVal
  deriving DecidableEq, Repr

structure VMatch where
  id : Option String
  status : Option String
  tournament : Option VTournament
  players : Option (List VPlayer)
  score : Option VScore
  startTime : Option (Option Int)
  endTime : Option (Option Int)
  deriving DecidableEq, Repr

/-- JS truthiness of a dynamically-typed value. -/
def rvTruthy : RawVal → Bool
  | .vnum n => n != 0
  | .vstr s => s != ""
  | .vnone => false

/-- `typeof ranking !== 'number' || ranking < 1`. -/
def rankingInvalid : RawVal → Bool
  | .vnum n => n < 1
  | .vstr _ => true
  | .vnone => true

/-- Rendering of a dynamically-typed value inside a template string. -/
def rvToString : RawVal → String
  | .vnum n => toString n
  | .vstr s => s
  | .vnone => "undefined"

def validStatuses : List String :=
  ["scheduled", "live", "completed", "cancelled", "walkover", "retired"]

def validateBasicStructure (m : VMatch) : List String × List String :=
  let errors :=
    (if ¬truthyS m.id then ["Missing match ID"] else []) ++
    (if ¬truthyS m.status then ["Missing match status"] else [])
  let warnings :=
    if truthyS m.status ∧ m.status.getD "" ∉ validStatuses then
      ["Unknown match status: " ++ m.status.getD ""]
    else []
  (errors, warnings)

def validCategories : List String := ["ATP", "WTA", "Challenger", "ITF", "Exhibition"]

def validSurfaces : List String := ["Hard", "Clay", "Grass", "Indoor", "Carpet"]

def validateTournament (tournament : Option VTournament) : List String × List String :=
  match tournament with
  | none => (["Missing tournament information"], [])
  | some t =>
    let errors := if ¬truthyS t.name then ["Missing tournament name"] else []
    let warnings :=
      (if ¬truthyS t.category then ["Missing tournament category"] else []) ++
      (if ¬truthyS t.surface then ["Missing surface information"] else []) ++
      (if ¬truthyS t.location then ["Missing tournament location"] else []) ++
      (if truthyS t.category ∧ t.category.getD "" ∉ validCategories then
        ["Unknown tournament category: " ++ t.category.getD ""] else []) ++
      (if truthyS t.surface ∧ t.surface.getD "" ∉ validSurfaces then
        ["Unknown surface type: " ++ t.surface.getD ""] else [])
    (errors, warnings)

def validatePlayer (p : VPlayer) (index1 : Nat) : List String × List String :=
  let ix := toString index1
  let errors := if ¬truthyS p.name then ["Player " ++ ix ++ " missing name"] else []
  let warnings :=
    (if ¬truthyS p.nationality then ["Player " ++ ix ++ " missing nationality"] else []) ++
    (if ¬truthyS p.countryCode then ["Player " ++ ix ++ " missing country code"] else []) ++
    (if truthyS p.countryCode ∧ ¬isTwoUpper (p.countryCode.getD "") then
      ["Player " ++ ix ++ " has invalid country code format: " ++ p.countryCode.getD ""]
    else []) ++
    (if rvTruthy p.ranking && rankingInvalid p.ranking then
      ["Player " ++ ix ++ " has invalid ranking: " ++ rvToString p.ranking]
    else [])
  (errors, warnings)

def validatePlayers (players : Option (List VPlayer)) : List String × List String :=
  match players with
  | none => (["Invalid players array"], [])
  | some l =>
    if l.length ≠ 2 then (["Expected 2 players, got " ++ toString l.length], [])
    else
      (l.enum.map fun p => validatePlayer p.2 (p.1 + 1)).foldl
        (fun acc r => (acc.1 ++ r.1, acc.2 ++ r.2)) ([], [])

/-- Template `${set.player1}-${set.player2}` for a numeric pair. -/
def showPair (a b : Int) : String := toString a ++ "-" ++ toString b

def validateTiebreak (tiebreak : VGames) (setNumber : Nat) : List String × List String :=
  match tiebreak.player1, tiebreak.player2 with
  | some p1, some p2 =>
    let maxTiebreak := max p1 p2
    let minTiebreak := min p1 p2
    if maxTiebreak < 7 ∧ maxTiebreak ≠ minTiebreak then
      ([], ["Set " ++ toString setNumber ++ " tiebreak incomplete: " ++ showPair p1 p2])
    else if maxTiebreak ≥ 7 ∧ maxTiebreak - minTiebreak < 2 then
      ([], ["Set " ++ toString setNumber ++ " tiebreak should continue: " ++ showPair p1 p2])
    else ([], [])
  | _, _ => (["Set " ++ toString setNumber ++ " tiebreak has non-numeric scores"], [])

def validateSet (set : VSet) (setNumber : Nat) : List String × List String :=
  match set.player1, set.player2 with
  | some p1, some p2 =>
    if p1 < 0 ∨ p2 < 0 then
      (["Set " ++ toString setNumber ++ " has negative scores"], [])
    else
      let maxScore := max p1 p2
      let minScore := min p1 p2
      let scoring : List String × List String :=
        if maxScore < 6 then
          if maxScore = minScore then ([], [])
          else if maxScore - minScore > 2 then
            ([], ["Set " ++ toString setNumber ++ " has unusual score gap: " ++ showPair p1 p2])
          else ([], [])
        else if maxScore = 6 then
          if minScore > 4 then
            ([], ["Set " ++ toString setNumber ++ " should go to tiebreak or continue: "
              ++ showPair p1 p2])
          else ([], [])
        else if maxScore = 7 then
          if minScore < 5 then
            (["Set " ++ toString setNumber ++ " invalid 7-game set: " ++ showPair p1 p2], [])
          else if minScore = 6 then
            (match set.tiebreak with
             | none => ([], ["Set " ++ toString setNumber ++ " 7-6 result missing tiebreak score"])
             | some _ => ([], []))
          else ([], [])
        else if maxScore > 7 then
          if maxScore - minScore ≠ 2 then
            (["Set " ++ toString setNumber ++ " invalid long set: " ++ showPair p1 p2], [])
          else ([], [])
        else ([], [])
      let tb := match set.tiebreak with
        | some t => validateTiebreak t setNumber
        | none => ([], [])
      (scoring.1 ++ tb.1, scoring.2 ++ tb.2)
  | _, _ => (["Set " ++ toString setNumber ++ " has non-numeric scores"], [])

def validateCurrentGames (games : VGames) : List String × List String :=
  match games.player1, games.player2 with
  | some p1, some p2 =>
    if p1 < 0 ∨ p2 < 0 then (["Current games have negative scores"], [])
    else if p1 > 7 ∨ p2 > 7 then
      ([], ["Unusual current game score: " ++ showPair p1 p2])
    else ([], [])
  | _, _ => (["Current games have non-numeric scores"], [])

/-- Comparison of possibly non-numeric values: in JS any `>` with
`undefined` is false. -/
def optGT (a b : Option Int) : Bool :=
  match a, b with
  | some x, some y => x > y
  | _, _ => false

def validateCompletedMatch (sets : List VSet) : List String × List String :=
  let counted := sets.foldl
    (fun acc s =>
      if optGT s.player1 s.player2 then (acc.1 + 1, acc.2)
      else if optGT s.player2 s.player1 then (acc.1, acc.2 + 1)
      else acc) ((0 : Nat), (0 : Nat))
  let totalSets := counted.1 + counted.2
  let maxSets := max counted.1 counted.2
  let w1 := if maxSets < 2 then ["Completed match has fewer than 2 sets won by winner"] else []
  let w2 := if totalSets < 2 then ["Completed match has very few completed sets"] else []
  let w3 :=
    if maxSets = 2 ∧ totalSets ≤ 3 then []
    else if maxSets = 3 ∧ totalSets ≤ 5 then []
    else ["Unusual set count for completed match: " ++ toString counted.1 ++ "-" ++ toString counted.2]
  ([], w1 ++ w2 ++ w3)

def validateScore (score : VScore) (status : Option String) : List String × List String :=
  match score.sets with
  | none =>
    if status = some "live" ∨ status = some "completed" then
      ([], ["Missing sets array for live/completed match"])
    else ([], [])
  | some sets =>
    let perSet := (sets.enum.map fun p => validateSet p.2 (p.1 + 1)).foldl
      (fun acc r => (acc.1 ++ r.1, acc.2 ++ r.2)) ([], [])
    let count : List String × List String :=
      if sets.length > 5 then
        (["Too many sets: " ++ toString sets.length ++ " (maximum 5)"], [])
      else ([], [])
    let games : List String × List String :=
      if status = some "live" then
        match score.games with
        | some g => validateCurrentGames g
        | none => ([], [])
      else ([], [])
    let completed : List String × List String :=
      if status = some "completed" then validateCompletedMatch sets else ([], [])
    (perSet.1 ++ count.1 ++ games.1 ++ completed.1,
     perSet.2 ++ count.2 ++ games.2 ++ completed.2)

/-- `validateStatusConsistency`; `Except.error ()` marks the
`score.sets.length` accesses that throw in JS when `sets` is absent. -/
def validateStatusConsistency (m : VMatch) : Except Unit (List String × List String) := do
  let w1 := match m.startTime with
    | some none => ["Invalid start time format"]
    | _ => []
  let w2 := match m.endTime with
    | some none => ["Invalid end time format"]
    | _ => []
  let e1 := match m.startTime, m.endTime with
    | some (some s), some (some e) =>
      if e ≤ s then ["End time is before or equal to start time"] else []
    | _, _ => []
  let w3 ← match m.status, m.score with
    | some st, some sc =>
      if st = "scheduled" then
        match sc.sets with
        | none => Except.error ()
        | some l => pure (if l.length > 0 then ["Scheduled match has score data"] else [])
      else pure []
    | _, _ => pure []
  let w4 ← match m.status with
    | some st =>
      if st = "completed" then
        match m.score with
        | none => pure ["Completed match missing score data"]
        | some sc =>
          match sc.sets with
          | none => Except.error ()
          | some l => pure (if l.length = 0 then ["Completed match missing score data"] else [])
      else pure []
    | none => pure []
  let w5 ← match m.status with
    | some st =>
      if st = "live" then
        match m.score with
        | none => pure ["Live match missing score data"]
        | some sc =>
          match sc.sets with
          | none => Except.error ()
          | some l => pure (if l.length = 0 then ["Live match missing score data"] else [])
      else pure []
    | none => pure []
  pure (e1, w1 ++ w2 ++ w3 ++ w4 ++ w5)

def calculateDataQuality (errors warnings : List String) : String :=
  if errors.length > 0 then "poor"
  else if warnings.length = 0 then "excellent"
  else if warnings.length ≤ 2 then "good"
  else "fair"

def performFullValidation (m : VMatch) : Except Unit MatchValidation := do
  let b := validateBasicStructure m
  let t := validateTournament m.tournament
  let p := validatePlayers m.players
  let s := match m.score with
    | some sc => validateScore sc m.status
    | none => ([], [])
  let c ← validateStatusConsistency m
  let errors := b.1 ++ t.1 ++ p.1 ++ s.1 ++ c.1
  let warnings := b.2 ++ t.2 ++ p.2 ++ s.2 ++ c.2
  pure { isValid := errors.isEmpty
         errors := errors
         warnings := warnings
         dataQuality := calculateDataQuality errors warnings }

/-! ### Validation cache (`validateMatch`) -/

/-- `JSON.stringify` of a possibly non-numeric value (non-numbers are
rendered as `null`, the choice made for this embedding). -/
def jsonOptInt : Option Int → String
  | some n => toString n
  | none => "null"

def jsonVGames (g : VGames) : String :=
  "\x7b\"player1\":" ++ jsonOptInt g.player1 ++ ",\"player2\":" ++ jsonOptInt g.player2 ++ "\x7d"

def jsonVSet (s : VSet) : String :=
  "\x7b\"player1\":" ++ jsonOptInt s.player1 ++ ",\"player2\":" ++ jsonOptInt s.player2 ++
    (match s.tiebreak with
     | some tb => ",\"tiebreak\":" ++ jsonVGames tb
     | none => "") ++ "\x7d"

def jsonVScore (sc : VScore) : String :=
  let fields :=
    (match sc.sets with
     | some l => ["\"sets\":[" ++ String.intercalate "," (l.map jsonVSet) ++ "]"]
     | none => []) ++
    (match sc.games with
     | some g => ["\"games\":" ++ jsonVGames g]
     | none => [])
  "\x7b" ++ String.intercalate "," fields ++ "\x7d"

/-- `JSON.stringify(match.score)` inside a template string
(`undefined` renders as the text "undefined"). -/
def stringifyScore : Option VScore → String
  | none => "undefined"
  | some sc => jsonVScore sc

/-- The validation-cache key: match id plus serialized score. -/
def cacheKey (m : VMatch) : String :=
  (match m.id with | some s => s | none => "undefined") ++ "-" ++ stringifyScore m.score

/-- The validation cache: an insertion-ordered map from key to a
validation result stamped with its write time. -/
def ValidatorState : Type := List (String × MatchValidation × Nat)

def cacheGet (st : ValidatorState) (k : String) : Option (MatchValidation × Nat) :=
  (List.find? (fun e => e.1 == k) st).map (fun e => e.2)

def cacheSet : ValidatorState → String → MatchValidation × Nat → ValidatorState
  | [], k, v => [(k, v)]
  | e :: tl, k, v => if e.1 = k then (k, v) :: tl else e :: cacheSet tl k v

def cacheTimeout : Nat := 5 * 60 * 1000

/-- `validateMatch`: serve a cached result younger than the TTL, else
recompute and store. -/
def validateMatch (st : ValidatorState) (m : VMatch) (now : Nat) :
    Except Unit (MatchValidation × ValidatorState) :=
  match cacheGet st (cacheKey m) with
  | some (v, ts) =>
    if now - ts < cacheTimeout then Except.ok (v, st)
    else do
      let validation ← performFullValidation m
      Except.ok (validation, cacheSet st (cacheKey m) (validation, now))
  | none => do
    let validation ← performFullValidation m
    Except.ok (validation, cacheSet st (cacheKey m) (validation, now))

/-! ### Live-update validation -/

structure ProgGames where
  player1 : Int
  player2 : Int
  deriving DecidableEq, Repr

structure ProgSet where
  player1 : Int
  player2 : Int
  deriving DecidableEq, Repr

structure ProgScore where
  sets : List ProgSet
  games : Option ProgGames
  deriving DecidableEq, Repr

/-- Body of `validateScoreProgression`'s per-set loop at index `i`
(`oldScore.sets[i]` always exists for `i` below the old length; the
`disappeared` arm mirrors the JS `!newSet` check). -/
def progAt (newSets oldSets : List ProgSet) (i : Nat) : List String :=
  match newSets.get? i, oldSets.get? i with
  | none, _ => ["Set " ++ toString (i + 1) ++ " disappeared in update"]
  | some newSet, some oldSet =>
    if newSet.player1 < oldSet.player1 ∨ newSet.player2 < oldSet.player2 then
      ["Set " ++ toString (i + 1) ++ " score decreased in update"]
    else []
  | some _, none => []

/-- The games-progression check of `validateScoreProgression`. -/
def progGamesWarn (oldScore newScore : ProgScore) : List String :=
  match oldScore.games, newScore.games with
  | some og, some ng =>
    if ng.player1 < og.player1 ∨ ng.player2 < og.player2 then
      if newScore.sets.length ≤ oldScore.sets.length then
        ["Games score decreased without new set"]
      else []
    else []
  | _, _ => []

def validateScoreProgression (oldScore newScore : ProgScore) : List String × List String :=
  if newScore.sets.length < oldScore.sets.length then
    (["Set count decreased in score update"], [])
  else
    ((List.range oldScore.sets.length).foldl
        (fun acc i => acc ++ progAt newScore.sets oldScore.sets i) [],
     progGamesWarn oldScore newScore)

def transitionsFor (oldStatus : String) : List String :=
  if oldStatus = "scheduled" then ["live", "cancelled"]
  else if oldStatus = "live" then ["completed", "retired", "cancelled"]
  else if oldStatus = "completed" then []
  else if oldStatus = "cancelled" then []
  else if oldStatus = "retired" then []
  else if oldStatus = "walkover" then []
  else []

def validateStatusTransition (oldStatus newStatus : String) : List String :=
  if oldStatus ≠ newStatus ∧ newStatus ∉ transitionsFor oldStatus then
    ["Invalid status transition: " ++ oldStatus ++ " -> " ++ newStatus]
  else []

structure LiveDataUpdate where
  /-- Timestamp string, by its parse result (`none` = invalid). -/
  timestamp : Option Int
  score : Option ProgScore
  status : String
  deriving DecidableEq, Repr

structure PrevMatch where
  score : Option ProgScore
  status : String
  deriving DecidableEq, Repr

def validateLiveUpdate (update : LiveDataUpdate) (previousMatch : PrevMatch) : MatchValidation :=
  let e0 := if update.timestamp = none then ["Invalid update timestamp"] else []
  let prog := match previousMatch.score, update.score with
    | some o, some n => validateScoreProgression o n
    | _, _ => ([], [])
  let trans := validateStatusTransition previousMatch.status update.status
  let errors := e0 ++ prog.1 ++ trans
  let warnings := prog.2
  { isValid := errors.isEmpty
    errors := errors
    warnings := warnings
    dataQuality := calculateDataQuality errors warnings }

/-! ## `LiveDataFormatter` (winner derivation) -/

structure FSet where
  player1 : Int
  player2 : Int
  deriving DecidableEq, Repr

structure FScore where
  sets : List FSet
  deriving DecidableEq, Repr

def calculateSetsWon (sets : List FSet) : Nat × Nat :=
  sets.foldl
    (fun acc s =>
      if s.player1 > s.player2 then (acc.1 + 1, acc.2)
      else if s.player2 > s.player1 then (acc.1, acc.2 + 1)
      else acc) ((0 : Nat), (0 : Nat))

def determineMatchWinner (score : Option FScore) : Option Nat :=
  match score with
  | none => none
  | some sc =>
    let won := calculateSetsWon sc.sets
    if won.1 ≥ 2 ∧ won.1 > won.2 then some 0
    else if won.2 ≥ 2 ∧ won.2 > won.1 then some 1
    else none

/-- Modelled from the spec (C8's wording, for comparison with
`determineMatchWinner`): a player is match winner exactly when they have
strictly more set wins than the opponent and have reached the simple
majority — 2 sets when at most 3 sets are decided, 3 sets when up to 5
are decided; otherwise null. -/
def specMatchWinner (score : Option FScore) : Option Nat :=
  match score with
  | none => none
  | some sc =>
    let won := calculateSetsWon sc.sets
    let decided := won.1 + won.2
    if won.1 > won.2 ∧ ((decided ≤ 3 ∧ won.1 ≥ 2) ∨ (decided ≤ 5 ∧ won.1 ≥ 3)) then some 0
    else if won.2 > won.1 ∧ ((decided ≤ 3 ∧ won.2 ≥ 2) ∨ (decided ≤ 5 ∧ won.2 ≥ 3)) then some 1
    else none

/-! ## Tabular loader (`parseCsvLine` / `parseCsv`) -/

/-- One character step of `parseCsvLine`'s loop:
state is (completed fields, current field, quote state). -/
def csvStep (st : List String × List Char × Bool) (c : Char) :
    List String × List Char × Bool :=
  let result := st.1
  let current := st.2.1
  let inQuotes := st.2.2
  if c = '"' then (result, current, !inQuotes)
  else if c = ',' ∧ inQuotes = false then (result ++ [jsTrim (String.mk current)], [], inQuotes)
  else (result, current ++ [c], inQuotes)

def parseCsvLine (line : String) : List String :=
  let st := line.data.foldl csvStep ([], [], false)
  st.1 ++ [jsTrim (String.mk st.2.1)]

/-- `parseCsv`: header row then data rows; a row object is represented as
the header-to-field association in column order (JS builds it by
assigning `row[headers[j]] = values[j]`). -/
def parseCsv (content : String) : List (List (String × String)) :=
  let lines := (jsSplitOn content "\n").filter (fun l => jsTrim l ≠ "")
  match lines with
  | [] => []
  | header :: rest =>
    let headers := parseCsvLine header
    rest.foldl
      (fun data line =>
        if (parseCsvLine line).length = headers.length then
          data ++ [headers.zip (parseCsvLine line)]
        else data)
      []

/-! ## Analytics (`analyzeSurfacePerformance`) -/

/-- The columns of an `AtpMatch` row read by the embedded analytics
(the remaining archive columns are not consulted here). -/
structure AtpMatchRow where
  surface : String
  winner_id : String
  loser_id : String
  deriving DecidableEq, Repr

structure SurfaceStats where
  wins : Nat
  losses : Nat
  totalMatches : Nat
  winPercentage : ℚ
  deriving DecidableEq, Repr

/-- Bump the bucket for `surface` (creating it at first sight), exactly as
the JS mutates its string-keyed object. -/
def updateBucket (acc : List (String × SurfaceStats)) (surface : String)
    (isWinner : Bool) : List (String × SurfaceStats) :=
  match acc with
  | [] =>
    [(surface,
      { wins := if isWinner then 1 else 0
        losses := if isWinner then 0 else 1
        totalMatches := 1
        winPercentage := 0 })]
  | e :: tl =>
    if e.1 = surface then
      (surface,
        { e.2 with
          wins := e.2.wins + (if isWinner then 1 else 0)
          losses := e.2.losses + (if isWinner then 0 else 1)
          totalMatches := e.2.totalMatches + 1 }) :: tl
    else e :: updateBucket tl surface isWinner

/-- `analyzeSurfacePerformance`: every row lands in its surface's bucket,
a win exactly when `winner_id` matches the player; percentages are filled
in a second pass (JS floating division is embedded as exact `ℚ`). -/
def analyzeSurfacePerformance (matchRows : List AtpMatchRow) (playerId : String) :
    List (String × SurfaceStats) :=
  let surfaceStats := matchRows.foldl
    (fun acc m => updateBucket acc m.surface (m.winner_id = playerId)) []
  surfaceStats.map fun p =>
    (p.1,
      { p.2 with
        winPercentage :=
          if p.2.totalMatches > 0 then (p.2.wins : ℚ) / (p.2.totalMatches : ℚ) * 100 else 0 })


/-! ### Concrete validator inputs used in the cache analysis -/

/-- A match whose first player has no name (one validation error). -/
def collidingMatchA : VMatch :=
  ⟨some "m1", some "completed",
   some ⟨some "T", some "ATP", some "Hard", some "X"⟩,
   some [⟨none, some "ES", some "ES", .vnone⟩, ⟨some "B", some "FR", some "FR", .vnone⟩],
   none, none, none⟩

/-- The same id and (absent) score — hence the same cache key — but with
both player names present. -/
def collidingMatchB : VMatch :=
  ⟨some "m1", some "completed",
   some ⟨some "T", some "ATP", some "Hard", some "X"⟩,
   some [⟨some "A", some "ES", some "ES", .vnone⟩, ⟨some "B", some "FR", some "FR", .vnone⟩],
   none, none, none⟩

/-- `performFullValidation collidingMatchB`. -/
def goodValidation : MatchValidation :=
  ⟨true, [], ["Completed match missing score data"], "good"⟩

/-- The cache state after validating `collidingMatchB` on a fresh
instance at time 0. -/
def demoCache : ValidatorState :=
  [(cacheKey collidingMatchB, goodValidation, 0)]

/-- Three-call trace from a fresh cache: validate `collidingMatchA` at
time 0, then `collidingMatchB` at 299999 and at 300000; returns the two
results for `collidingMatchB`. -/
def cacheDemoRun : Option (MatchValidation × MatchValidation) :=
  match validateMatch [] collidingMatchA 0 with
  | .ok (_, s1) =>
    match validateMatch s1 collidingMatchB 299999 with
    | .ok (r2, s2) =>
      match validateMatch s2 collidingMatchB 300000 with
      | .ok (r3, _) => some (r2, r3)
      | .error _ => none
    | .error _ => none
  | .error _ => none


/-- A six-set score (four set wins against two): outside tennis, but
constructible for the formatter. -/
def sixSetScore : FScore :=
  ⟨[⟨1, 0⟩, ⟨1, 0⟩, ⟨1, 0⟩, ⟨0, 1⟩, ⟨0, 1⟩, ⟨1, 0⟩]⟩


/-- Lookup in the surface-stats association (the JS object's string key
access). -/
def bfind (acc : List (String × SurfaceStats)) (s : String) : Option SurfaceStats :=
  (acc.find? fun e => e.1 == s).map fun e => e.2

/-! # Theorems -/

/-! ## Shared helper lemmas -/

/-- An `ite` of two list members is a list member. -/
theorem mem_ite {c : Prop} [Decidable c] {a b : String} {L : List String}
    (ha : a ∈ L) (hb : b ∈ L) : (if c then a else b) ∈ L := by
  by_cases h : c
  · rwa [if_pos h]
  · rwa [if_neg h]

theorem append_ne_empty (a b : String) (hb : b ≠ "") : a ++ b ≠ "" := by
  intro h
  apply hb
  have hd := congrArg String.data h
  rw [String.data_append] at hd
  obtain ⟨-, h2⟩ := List.append_eq_nil.mp hd
  cases b with
  | mk l =>
    simp only [String.data] at h2
    subst h2
    rfl

theorem cleanPlayers_length (players : Option (List (Option RawPlayer))) (nn : Bool) :
    (cleanPlayers players nn).length = 2 := by
  unfold cleanPlayers createDefaultPlayers
  match players with
  | none => rfl
  | some l =>
    by_cases h : l.length = 2
    · simp [h, List.enum_length]
    · simp [h]

theorem cleanTournamentName_ne_empty (name : Option String) :
    cleanTournamentName name ≠ "" := by
  cases name with
  | none => decide
  | some nm =>
    simp only [cleanTournamentName]
    split_ifs with h0 h1 h2
    · decide
    · intro hc
      rw [hc] at h2
      exact absurd h2 (by decide)
    · exact append_ne_empty (fixedName nm) " Tournament" (by decide)
    · intro hc
      rw [hc] at h1
      exact h1 (by decide)

theorem cleanTournament_name_ne_empty (env : CleanEnv) (t : Option RawTournament)
    (dl : Option String) : (cleanTournament env t dl).name ≠ "" := by
  unfold cleanTournament
  match t with
  | none =>
    show (createDefaultTournament env _).name ≠ ""
    dsimp [createDefaultTournament]
    decide
  | some tt =>
    exact cleanTournamentName_ne_empty tt.name

theorem normalizeStatus_mem (st : Option String) :
    normalizeStatus st ∈ ["scheduled", "live", "completed", "cancelled", "walkover", "retired"] := by
  cases st with
  | none => decide
  | some s =>
    simp only [normalizeStatus]
    repeat' apply mem_ite
    all_goals decide

/-- C1.  `cleanMatch` is total over the modelled raw-match space (it is a
Lean function, so it cannot throw), and for every raw match, every option
record and every environment it returns a match with exactly two players,
a non-empty tournament name, and a status inside the closed status enum. -/
theorem cleanMatch_total_shape (env : CleanEnv) (raw : RawMatch)
    (options : DataCleaningOptions) :
    (cleanMatch env raw options).players.length = 2 ∧
    (cleanMatch env raw options).tournament.name ≠ "" ∧
    (cleanMatch env raw options).status ∈
      ["scheduled", "live", "completed", "cancelled", "walkover", "retired"] := by
  refine ⟨?_, ?_, ?_⟩
  · show (cleanPlayers raw.players _).length = 2
    exact cleanPlayers_length _ _
  · show (cleanTournament env raw.tournament _).name ≠ ""
    exact cleanTournament_name_ne_empty _ _ _
  · show normalizeStatus raw.status ∈ _
    exact normalizeStatus_mem _

theorem normalizeCategory_cases (c : Option String) :
    normalizeCategory c ∈ ["ATP", "WTA", "Challenger", "ITF", "Exhibition", "Unknown"]
      ∨ some (normalizeCategory c) = c := by
  cases c with
  | none => left; decide
  | some s =>
    simp only [normalizeCategory]
    split_ifs
    all_goals first
      | (left; decide)
      | (right; rfl)

theorem normalizeSurface_cases (c : Option String) :
    normalizeSurface c ∈ ["Hard", "Clay", "Grass", "Indoor", "Carpet"]
      ∨ some (normalizeSurface c) = c := by
  cases c with
  | none => left; decide
  | some s =>
    simp only [normalizeSurface]
    split_ifs
    all_goals first
      | (left; decide)
      | (right; rfl)

theorem cleanTournament_category_cases (env : CleanEnv) (t : Option RawTournament)
    (dl : Option String) :
    (cleanTournament env t dl).category ∈ ["ATP", "WTA", "Challenger", "ITF", "Exhibition", "Unknown"]
      ∨ some (cleanTournament env t dl).category = t.bind RawTournament.category := by
  cases t with
  | none =>
    left
    show (createDefaultTournament env _).category ∈ _
    dsimp [createDefaultTournament]
    decide
  | some tt =>
    show normalizeCategory tt.category ∈ _ ∨ some (normalizeCategory tt.category) = _
    simpa using normalizeCategory_cases tt.category

theorem cleanTournament_surface_cases (env : CleanEnv) (t : Option RawTournament)
    (dl : Option String) :
    (cleanTournament env t dl).surface ∈ ["Hard", "Clay", "Grass", "Indoor", "Carpet"]
      ∨ some (cleanTournament env t dl).surface = t.bind RawTournament.surface := by
  cases t with
  | none =>
    left
    show (createDefaultTournament env _).surface ∈ _
    dsimp [createDefaultTournament]
    decide
  | some tt =>
    show normalizeSurface tt.surface ∈ _ ∨ some (normalizeSurface tt.surface) = _
    simpa using normalizeSurface_cases tt.surface

/-- C6 (amended).  For every raw input, the cleaned tournament's
`category` is either in the closed enum
ATP/WTA/Challenger/ITF/Exhibition/Unknown or is the raw category string
passed through verbatim (the normalizer's fallback arm returns
`category.toString()`), and likewise `surface` is in
Hard/Clay/Grass/Indoor/Carpet or the raw surface string verbatim. -/
theorem cleanMatch_category_surface (env : CleanEnv) (raw : RawMatch)
    (options : DataCleaningOptions) :
    ((cleanMatch env raw options).tournament.category
        ∈ ["ATP", "WTA", "Challenger", "ITF", "Exhibition", "Unknown"]
      ∨ some (cleanMatch env raw options).tournament.category
          = raw.tournament.bind RawTournament.category) ∧
    ((cleanMatch env raw options).tournament.surface
        ∈ ["Hard", "Clay", "Grass", "Indoor", "Carpet"]
      ∨ some (cleanMatch env raw options).tournament.surface
          = raw.tournament.bind RawTournament.surface) := by
  constructor
  · exact cleanTournament_category_cases env raw.tournament _
  · exact cleanTournament_surface_cases env raw.tournament _

/-- A raw match whose tournament carries vocabulary the normalizers do
not know. -/
def oddCategoryRaw : RawMatch :=
  { RawMatch.empty with
    tournament := some
      { id := none, name := none, category := some "Premier League",
        surface := some "AstroTurf", location := none, city := none,
        country := none, startDate := none, endDate := none, level := none } }

/-- C6 counterexample: an unknown raw category/surface string is passed
through by `cleanMatch`, so the cleaned tournament's category and surface
are not confined to the claimed closed enums. -/
theorem cleanMatch_category_surface_counterexample :
    (cleanMatch ⟨"generated-id", 0⟩ oddCategoryRaw {}).tournament.category = "Premier League" ∧
    "Premier League" ∉ (["ATP", "WTA", "Challenger", "ITF", "Exhibition", "Unknown"] : List String) ∧
    (cleanMatch ⟨"generated-id", 0⟩ oddCategoryRaw {}).tournament.surface = "AstroTurf" ∧
    "AstroTurf" ∉ (["Hard", "Clay", "Grass", "Indoor", "Carpet"] : List String) := by
  decide

/-- C2.  Score cleaning: a set with both sides unparseable is dropped (no
0-0 coercion); a set with exactly one unparseable side is kept with that
side coerced to 0; dropped sets leave no trace in the output sequence; and
a score whose cleaned set list is empty and whose current-games pair is
absent collapses to `none`, never to an empty score object. -/
theorem cleanScore_unparseable_sets :
    (∀ s : RawSetObj, parseScore s.player1 = none → parseScore s.player2 = none →
      cleanSet (some s) = none) ∧
    (∀ (s : RawSetObj) (n : Int), parseScore s.player1 = none → parseScore s.player2 = some n →
      cleanSet (some s) = some
        { player1 := 0, player2 := n
          tiebreak := s.tiebreak.map fun tb =>
            { player1 := (parseScore tb.player1).getD 0
              player2 := (parseScore tb.player2).getD 0 } }) ∧
    (∀ (s : RawSetObj) (n : Int), parseScore s.player1 = some n → parseScore s.player2 = none →
      cleanSet (some s) = some
        { player1 := n, player2 := 0
          tiebreak := s.tiebreak.map fun tb =>
            { player1 := (parseScore tb.player1).getD 0
              player2 := (parseScore tb.player2).getD 0 } }) ∧
    (∀ l : List (Option RawSetObj), cleanSets (some l) = l.filterMap cleanSet) ∧
    (∀ sc : RawScoreObj,
      cleanScore (some sc) = none ↔ cleanSets sc.sets = [] ∧ cleanGames sc.games = none) ∧
    (∀ (sc : RawScoreObj) (c : CScore), cleanScore (some sc) = some c →
      c.sets ≠ [] ∨ c.games ≠ none) := by
  refine ⟨?_, ?_, ?_, ?_, ?_, ?_⟩
  · intro s hp1 hp2
    simp [cleanSet, hp1, hp2]
  · intro s n hp1 hp2
    simp [cleanSet, hp1, hp2]
  · intro s n hp1 hp2
    simp [cleanSet, hp1, hp2]
  · intro l
    simp [cleanSets, List.filterMap_map]
  · intro sc
    simp only [cleanScore]
    split_ifs with h
    · simp [h]
    · exact iff_of_false (by simp) h
  · intro sc c h
    simp only [cleanScore] at h
    split_ifs at h with hcond
    have hc := Option.some.inj h
    subst hc
    simpa using not_and_or.mp hcond

/-- C2 witness at concrete inputs: the `"-"/"-"` set is dropped, the
`"N/A"`/6 set is kept as 0-6, and a score holding only dropped sets and no
games is absent. -/
theorem cleanScore_unparseable_sets_witness :
    cleanSet (some ⟨RawVal.vstr "-", RawVal.vstr "-", none⟩) = none ∧
    cleanSet (some ⟨RawVal.vstr "N/A", RawVal.vnum 6, none⟩) =
      some { player1 := 0, player2 := 6, tiebreak := none } ∧
    cleanScore (some ⟨some [some ⟨RawVal.vstr "-", RawVal.vstr "-", none⟩], none, none⟩) = none := by
  refine ⟨cleanScore_unparseable_sets.1 _ (by decide) (by decide), ?_, ?_⟩
  · have h := cleanScore_unparseable_sets.2.1 ⟨RawVal.vstr "N/A", RawVal.vnum 6, none⟩ 6
      (by decide) (by decide)
    simpa using h
  · exact (cleanScore_unparseable_sets.2.2.2.2.1 _).mpr ⟨by decide, by decide⟩

/-- C3 (amended).  Per-set legality in the validator, for a set whose two
sides are non-negative numbers, with `g` the larger and `l` the smaller
count: `g = 7` with `l < 5` is an error; a bare 7-6 set (no tiebreak
field) yields exactly one warning and no error, so it cannot falsify
`isValid`; `g > 7` with a margin other than 2 is an error; and `g > 7`
with margin exactly 2 (no tiebreak field) is clean — the claim's
"`l` not 5 or 6 ⇒ error" is corrected to "`l < 5` ⇒ error", since a 7-7
set produces no error. -/
theorem validateSet_scoring_rules (p1 p2 : Int) (tb : Option VGames) (n : Nat)
    (hp1 : 0 ≤ p1) (hp2 : 0 ≤ p2) :
    (max p1 p2 = 7 ∧ min p1 p2 < 5 → (validateSet ⟨some p1, some p2, tb⟩ n).1 ≠ []) ∧
    (max p1 p2 = 7 ∧ min p1 p2 = 6 ∧ tb = none →
      validateSet ⟨some p1, some p2, tb⟩ n =
        ([], ["Set " ++ toString n ++ " 7-6 result missing tiebreak score"])) ∧
    (max p1 p2 > 7 ∧ max p1 p2 - min p1 p2 ≠ 2 →
      (validateSet ⟨some p1, some p2, tb⟩ n).1 ≠ []) ∧
    (max p1 p2 > 7 ∧ max p1 p2 - min p1 p2 = 2 ∧ tb = none →
      validateSet ⟨some p1, some p2, tb⟩ n = ([], [])) := by
  have hneg : ¬(p1 < 0 ∨ p2 < 0) := by omega
  refine ⟨?_, ?_, ?_, ?_⟩
  · rintro ⟨hg, hl⟩
    simp only [validateSet, if_neg hneg]
    rw [if_neg (by omega), if_neg (by omega), if_pos hg, if_pos hl]
    simp
  · rintro ⟨hg, hl, htb⟩
    subst htb
    simp only [validateSet, if_neg hneg]
    rw [if_neg (by omega), if_neg (by omega), if_pos hg, if_neg (by omega), if_pos hl]
    simp
  · rintro ⟨hg, hd⟩
    simp only [validateSet, if_neg hneg]
    rw [if_neg (by omega), if_neg (by omega), if_neg (by omega), if_pos hg, if_pos hd]
    simp
  · rintro ⟨hg, hd, htb⟩
    subst htb
    simp only [validateSet, if_neg hneg]
    rw [if_neg (by omega), if_neg (by omega), if_neg (by omega), if_pos hg, if_neg (by omega)]
    simp

/-- C3 counterexample: the 7-7 set has `g = 7` and `l = 7 ∉ {5, 6}`, yet
`validateSet` appends neither an error nor a warning. -/
theorem validateSet_seven_seven_counterexample :
    validateSet ⟨some 7, some 7, none⟩ 1 = ([], []) ∧
    max (7 : Int) 7 = 7 ∧ ¬(min (7 : Int) 7 = 5 ∨ min (7 : Int) 7 = 6) := by
  decide

/-- C3 witness at concrete inputs: bare 7-6 warns without error; 9-7
(margin 2) is clean. -/
theorem validateSet_scoring_rules_witness :
    validateSet ⟨some 7, some 6, none⟩ 3 =
      ([], ["Set 3 7-6 result missing tiebreak score"]) ∧
    validateSet ⟨some 9, some 7, none⟩ 1 = ([], []) := by
  have h1 := validateSet_scoring_rules 7 6 none 3 (by decide) (by decide)
  have h2 := validateSet_scoring_rules 9 7 none 1 (by decide) (by decide)
  exact ⟨h1.2.1 (by decide), h2.2.2.2 (by decide)⟩

/-! ## Live-update monotonicity and transitions -/

theorem foldl_append_join (g : Nat → List String) (l : List Nat) (init : List String) :
    l.foldl (fun acc i => acc ++ g i) init = init ++ (l.map g).flatten := by
  induction l generalizing init with
  | nil => simp
  | cons a t ih => simp [ih, List.append_assoc]

theorem validateScoreProgression_char (o n : ProgScore)
    (h : ¬(n.sets.length < o.sets.length)) :
    validateScoreProgression o n =
      (((List.range o.sets.length).map (progAt n.sets o.sets)).flatten, progGamesWarn o n) := by
  simp only [validateScoreProgression, if_neg h]
  rw [foldl_append_join]
  simp

/-- C4.  Live-update score monotonicity, exactly as `validateScoreProgression`
behaves: (1) a decrease in the set count is an error; (2) a decrease of
either player's game count in a set that existed before (and still exists)
is an error; (3) when the games pair decreases while the sets are
otherwise non-decreasing, the result is exactly one warning and no error
if no new set started, and nothing at all if the updated snapshot has
more sets. -/
theorem validateScoreProgression_monotone (o n : ProgScore) :
    (n.sets.length < o.sets.length → (validateScoreProgression o n).1 ≠ []) ∧
    (∀ i (hi : i < o.sets.length) (hn : i < n.sets.length),
      ((n.sets.get ⟨i, hn⟩).player1 < (o.sets.get ⟨i, hi⟩).player1 ∨
       (n.sets.get ⟨i, hn⟩).player2 < (o.sets.get ⟨i, hi⟩).player2) →
      (validateScoreProgression o n).1 ≠ []) ∧
    (∀ og ng, o.games = some og → n.games = some ng →
      (ng.player1 < og.player1 ∨ ng.player2 < og.player2) →
      (∀ i (hi : i < o.sets.length) (hn : i < n.sets.length),
        (o.sets.get ⟨i, hi⟩).player1 ≤ (n.sets.get ⟨i, hn⟩).player1 ∧
        (o.sets.get ⟨i, hi⟩).player2 ≤ (n.sets.get ⟨i, hn⟩).player2) →
      o.sets.length ≤ n.sets.length →
      ((n.sets.length = o.sets.length →
        validateScoreProgression o n = ([], ["Games score decreased without new set"])) ∧
       (o.sets.length < n.sets.length →
        validateScoreProgression o n = ([], [])))) := by
  refine ⟨?_, ?_, ?_⟩
  · intro hlt
    simp [validateScoreProgression, if_pos hlt]
  · intro i hi hn hdec
    by_cases hlt : n.sets.length < o.sets.length
    · simp [validateScoreProgression, if_pos hlt]
    · rw [validateScoreProgression_char o n hlt]
      intro hnil
      have hmem : progAt n.sets o.sets i = [] := by
        refine (List.flatten_eq_nil_iff.mp hnil) _ (List.mem_map_of_mem _ ?_)
        exact List.mem_range.mpr hi
      unfold progAt at hmem
      rw [List.get?_eq_get hn, List.get?_eq_get hi] at hmem
      dsimp only at hmem
      rw [if_pos hdec] at hmem
      simp at hmem
  · intro og ng hog hng hdec hmono hle
    have hnlt : ¬(n.sets.length < o.sets.length) := by omega
    have hjoin : ((List.range o.sets.length).map (progAt n.sets o.sets)).flatten = [] := by
      apply List.flatten_eq_nil_iff.mpr
      intro l hl
      obtain ⟨i, hi, rfl⟩ := List.mem_map.mp hl
      have hi' := List.mem_range.mp hi
      have hn' : i < n.sets.length := lt_of_lt_of_le hi' hle
      unfold progAt
      rw [List.get?_eq_get hn', List.get?_eq_get hi']
      dsimp only
      rw [if_neg]
      push_neg
      exact hmono i hi' hn'
    constructor
    · intro heq
      rw [validateScoreProgression_char o n hnlt, hjoin]
      unfold progGamesWarn
      rw [hog, hng]
      dsimp only
      rw [if_pos hdec, if_pos (by omega)]
    · intro hlt
      rw [validateScoreProgression_char o n hnlt, hjoin]
      unfold progGamesWarn
      rw [hog, hng]
      dsimp only
      rw [if_pos hdec, if_neg (by omega)]

/-- C4 witness at concrete inputs: with one existing set unchanged, a
games drop from 5-3 to 0-1 warns when the set count stays at one, and is
silent when a second set appeared. -/
theorem validateScoreProgression_monotone_witness :
    validateScoreProgression ⟨[⟨6, 4⟩], some ⟨5, 3⟩⟩ ⟨[⟨6, 4⟩], some ⟨0, 1⟩⟩ =
      ([], ["Games score decreased without new set"]) ∧
    validateScoreProgression ⟨[⟨6, 4⟩], some ⟨5, 3⟩⟩ ⟨[⟨6, 4⟩, ⟨0, 1⟩], some ⟨0, 1⟩⟩ =
      ([], []) := by
  constructor
  · exact ((validateScoreProgression_monotone ⟨[⟨6, 4⟩], some ⟨5, 3⟩⟩
      ⟨[⟨6, 4⟩], some ⟨0, 1⟩⟩).2.2 ⟨5, 3⟩ ⟨0, 1⟩ rfl rfl (by decide)
      (by intro i hi hn; simp only [List.length_cons, List.length_nil] at hi
          interval_cases i
          simp) (by decide)).1 rfl
  · exact ((validateScoreProgression_monotone ⟨[⟨6, 4⟩], some ⟨5, 3⟩⟩
      ⟨[⟨6, 4⟩, ⟨0, 1⟩], some ⟨0, 1⟩⟩).2.2 ⟨5, 3⟩ ⟨0, 1⟩ rfl rfl (by decide)
      (by intro i hi hn; simp only [List.length_cons, List.length_nil] at hi
          interval_cases i
          simp) (by decide)).2 (by decide)

theorem mem_transitionsFor (o n : String) :
    n ∈ transitionsFor o ↔
      (o, n) ∈ [("scheduled", "live"), ("scheduled", "cancelled"),
        ("live", "completed"), ("live", "retired"), ("live", "cancelled")] := by
  unfold transitionsFor
  split_ifs with h1 h2 h3 h4 h5 h6
  · subst h1; simp
  · subst h2; simp
  · subst h3; simp
  · subst h4; simp
  · subst h5; simp
  · subst h6; simp
  · simp [h1, h2]

/-- C5.  During live-update validation an error is appended if and only if
the two statuses differ and the edge is not one of scheduled→live,
scheduled→cancelled, live→completed, live→retired, live→cancelled (for
arbitrary status strings — unknown old statuses get no allowed edges);
in particular an unchanged status is never an error. -/
theorem validateStatusTransition_spec (oldStatus newStatus : String) :
    (validateStatusTransition oldStatus newStatus ≠ [] ↔
      (oldStatus ≠ newStatus ∧
        (oldStatus, newStatus) ∉
          [("scheduled", "live"), ("scheduled", "cancelled"),
           ("live", "completed"), ("live", "retired"), ("live", "cancelled")])) ∧
    validateStatusTransition oldStatus oldStatus = [] := by
  constructor
  · unfold validateStatusTransition
    split_ifs with h
    · refine iff_of_true (by simp) ⟨h.1, fun hm => h.2 ((mem_transitionsFor _ _).mpr hm)⟩
    · refine iff_of_false (by simp) ?_
      rintro ⟨hne, hnm⟩
      exact h ⟨hne, fun hmem => hnm ((mem_transitionsFor _ _).mp hmem)⟩
  · unfold validateStatusTransition
    rw [if_neg]
    rintro ⟨hne, -⟩
    exact hne rfl

/-! ## Validation cache -/

theorem cacheGet_cacheSet (st : ValidatorState) (k : String) (v : MatchValidation × Nat) :
    cacheGet (cacheSet st k v) k = some v := by
  induction st with
  | nil => simp [cacheSet, cacheGet, List.find?]
  | cons e tl ih =>
    by_cases h : e.1 = k
    · simp [cacheSet, if_pos h, cacheGet, List.find?]
    · simpa [cacheSet, if_neg h, cacheGet, List.find?, h] using ih

/-- C7 (amended).  Validating the same match twice within the cache TTL
yields the identical result, provided the first call actually computed and
stored the validation — i.e. the validator held no fresh cache entry for
the match's key (the key is only id + serialized score, so an entry
written for a different match can collide).  The second call is then
served from the cache entry the first call wrote, unchanged. -/
theorem validateMatch_cache_idempotent (st : ValidatorState) (m : VMatch)
    (t1 t2 : Nat) (r1 : MatchValidation) (s1 : ValidatorState)
    (hmiss : ∀ e, cacheGet st (cacheKey m) = some e → cacheTimeout ≤ t1 - e.2)
    (hok : validateMatch st m t1 = .ok (r1, s1))
    (hfresh : t2 - t1 < cacheTimeout) :
    validateMatch s1 m t2 = .ok (r1, s1) := by
  unfold validateMatch at hok ⊢
  cases hget : cacheGet st (cacheKey m) with
  | some e =>
    rw [hget] at hok
    obtain ⟨v, ts⟩ := e
    dsimp only at hok
    have hstale : ¬(t1 - ts < cacheTimeout) := by
      have := hmiss (v, ts) hget
      omega
    rw [if_neg hstale] at hok
    cases hperf : performFullValidation m with
    | error u => rw [hperf] at hok; simp [Bind.bind, Except.bind] at hok
    | ok v' =>
      rw [hperf] at hok
      simp only [Bind.bind, Except.bind, Except.ok.injEq, Prod.mk.injEq] at hok
      obtain ⟨rfl, rfl⟩ := hok
      rw [cacheGet_cacheSet]
      dsimp only
      rw [if_pos hfresh]
  | none =>
    rw [hget] at hok
    dsimp only at hok
    cases hperf : performFullValidation m with
    | error u => rw [hperf] at hok; simp [Bind.bind, Except.bind] at hok
    | ok v' =>
      rw [hperf] at hok
      simp only [Bind.bind, Except.bind, Except.ok.injEq, Prod.mk.injEq] at hok
      obtain ⟨rfl, rfl⟩ := hok
      rw [cacheGet_cacheSet]
      dsimp only
      rw [if_pos hfresh]

/-- C7 witness: on a fresh cache, validating `collidingMatchB` at time 0
stores its result, and re-validating one millisecond later returns that
exact stored result. -/
theorem validateMatch_cache_idempotent_witness :
    validateMatch demoCache collidingMatchB 1 = .ok (goodValidation, demoCache) :=
  validateMatch_cache_idempotent [] collidingMatchB 0 1 goodValidation demoCache
    (by intro e he; simp [cacheGet, List.find?] at he) rfl (by decide)

/-- C7 counterexample for the claim as stated: after validating
`collidingMatchA` (same cache key) at time 0, the two calls
`validateMatch · collidingMatchB` at times 299999 and 300000 — the same
match, 1 ms apart, well within the 300000 ms TTL — return different
results: the first is served from the colliding stale-to-be entry, the
second recomputes after that entry expires. -/
theorem validateMatch_cache_counterexample :
    300000 - 299999 < cacheTimeout ∧
    (cacheDemoRun.map fun p => decide (p.1 = p.2)) = some false := by
  decide

/-! ## Formatter winner derivation -/

theorem calculateSetsWon_go (sets : List FSet) (a b : Nat) :
    sets.foldl
      (fun acc s =>
        if s.player1 > s.player2 then (acc.1 + 1, acc.2)
        else if s.player2 > s.player1 then (acc.1, acc.2 + 1)
        else acc) (a, b) =
      (a + (sets.filter fun s => decide (s.player1 > s.player2)).length,
       b + (sets.filter fun s => decide (s.player2 > s.player1)).length) := by
  induction sets generalizing a b with
  | nil => simp
  | cons s t ih =>
    by_cases h1 : s.player1 > s.player2
    · have h2 : ¬(s.player2 > s.player1) := by omega
      simp only [List.foldl_cons, if_pos h1, ih, List.filter_cons, h1, h2]
      simp
      omega
    · by_cases h2 : s.player2 > s.player1
      · simp only [List.foldl_cons, if_neg h1, if_pos h2, ih, List.filter_cons, h1, h2]
        simp
        omega
      · simp only [List.foldl_cons, if_neg h1, if_neg h2, ih, List.filter_cons, h1, h2]
        simp

/-- C8 (amended).  `calculateSetsWon` counts, per side, the sets with the
strictly higher game count (equal sets count for neither); and
`determineMatchWinner` reports a player exactly when they have at least 2
set wins and strictly more than the opponent — the threshold is always 2,
not the claimed simple majority.  For every score with at most 5 decided
sets the two coincide, so the claim's majority rule holds on that domain;
beyond 5 decided sets they differ. -/
theorem determineMatchWinner_rules :
    (∀ sets : List FSet,
      calculateSetsWon sets =
        ((sets.filter fun s => decide (s.player1 > s.player2)).length,
         (sets.filter fun s => decide (s.player2 > s.player1)).length)) ∧
    (∀ sc : FScore,
      (determineMatchWinner (some sc) = some 0 ↔
        2 ≤ (calculateSetsWon sc.sets).1 ∧
          (calculateSetsWon sc.sets).2 < (calculateSetsWon sc.sets).1) ∧
      (determineMatchWinner (some sc) = some 1 ↔
        2 ≤ (calculateSetsWon sc.sets).2 ∧
          (calculateSetsWon sc.sets).1 < (calculateSetsWon sc.sets).2)) ∧
    (∀ sc : FScore,
      (calculateSetsWon sc.sets).1 + (calculateSetsWon sc.sets).2 ≤ 5 →
      determineMatchWinner (some sc) = specMatchWinner (some sc)) := by
  refine ⟨?_, ?_, ?_⟩
  · intro sets
    simpa using calculateSetsWon_go sets 0 0
  · intro sc
    simp only [determineMatchWinner]
    constructor
    · split_ifs with h1 h2
      · exact iff_of_true rfl ⟨h1.1, h1.2⟩
      · exact iff_of_false (by simp) fun hc => h1 ⟨hc.1, hc.2⟩
      · exact iff_of_false (by simp) fun hc => h1 ⟨hc.1, hc.2⟩
    · split_ifs with h1 h2
      · exact iff_of_false (by simp) fun hc => by omega
      · exact iff_of_true rfl ⟨h2.1, h2.2⟩
      · exact iff_of_false (by simp) fun hc => h2 ⟨hc.1, hc.2⟩
  · intro sc hsum
    simp only [determineMatchWinner, specMatchWinner]
    rcases hww : calculateSetsWon sc.sets with ⟨w1, w2⟩
    rw [hww] at hsum
    split_ifs <;> first | rfl | omega

/-- C8 witness: on the two-set sweep 6-4 6-4 the code's winner and the
claim's majority-rule winner agree (both report player 1, index 0). -/
theorem determineMatchWinner_rules_witness :
    determineMatchWinner (some ⟨[⟨6, 4⟩, ⟨6, 4⟩]⟩) =
      specMatchWinner (some ⟨[⟨6, 4⟩, ⟨6, 4⟩]⟩) :=
  determineMatchWinner_rules.2.2 ⟨[⟨6, 4⟩, ⟨6, 4⟩]⟩ (by decide)

/-- C8 counterexample: with six decided sets (4 against 2) the code
reports a winner while the claim's rule ("2 when at most 3 decided,
3 when up to 5 decided, else no winner") yields none. -/
theorem determineMatchWinner_counterexample :
    determineMatchWinner (some sixSetScore) = some 0 ∧
    specMatchWinner (some sixSetScore) = none ∧
    calculateSetsWon sixSetScore.sets = (4, 2) := by
  decide

/-! ## Tabular loader -/

theorem csv_fold_filterMap (headers : List String) (rows : List String)
    (init : List (List (String × String))) :
    rows.foldl
      (fun data line =>
        if (parseCsvLine line).length = headers.length then
          data ++ [headers.zip (parseCsvLine line)]
        else data)
      init =
    init ++ ((rows.filter fun l => (parseCsvLine l).length = headers.length).map
      fun l => headers.zip (parseCsvLine l)) := by
  induction rows generalizing init with
  | nil => simp
  | cons r t ih =>
    by_cases h : (parseCsvLine r).length = headers.length
    · simp [h, ih, List.filter_cons, List.append_assoc]
    · simp [h, ih, List.filter_cons]

theorem csvStep_quiet (l : List Char) (res : List String) (cur : List Char)
    (hq : ∀ c ∈ l, c ≠ '"') :
    l.foldl csvStep (res, cur, true) = (res, cur ++ l, true) := by
  induction l generalizing cur with
  | nil => simp
  | cons c t ih =>
    have hc : c ≠ '"' := hq c (List.mem_cons_self _ _)
    simp only [List.foldl_cons]
    rw [show csvStep (res, cur, true) c = (res, cur ++ [c], true) from by simp [csvStep, hc]]
    rw [ih (cur ++ [c]) fun x hx => hq x (List.mem_cons_of_mem _ hx)]
    simp

theorem csvFold_res_append (l : List Char) (res : List String) (cur : List Char) (q : Bool) :
    l.foldl csvStep (res, cur, q) =
      (res ++ (l.foldl csvStep ([], cur, q)).1, (l.foldl csvStep ([], cur, q)).2) := by
  induction l generalizing res cur q with
  | nil => simp
  | cons c t ih =>
    simp only [List.foldl_cons]
    by_cases hq : c = '"'
    · rw [show csvStep (res, cur, q) c = (res, cur, !q) from by simp [csvStep, hq],
          show csvStep ([], cur, q) c = ([], cur, !q) from by simp [csvStep, hq]]
      exact ih res cur (!q)
    · by_cases hcomma : c = ',' ∧ q = false
      · rw [show csvStep (res, cur, q) c = (res ++ [jsTrim (String.mk cur)], [], q) from by
              simp [csvStep, hq, hcomma],
            show csvStep ([], cur, q) c = ([jsTrim (String.mk cur)], [], q) from by
              simp [csvStep, hq, hcomma]]
        rw [ih (res ++ [jsTrim (String.mk cur)]) [] q, ih [jsTrim (String.mk cur)] [] q]
        simp [List.append_assoc]
      · rw [show csvStep (res, cur, q) c = (res, cur ++ [c], q) from by
              simp [csvStep, hq, hcomma],
            show csvStep ([], cur, q) c = ([], cur ++ [c], q) from by
              simp [csvStep, hq, hcomma]]
        exact ih res (cur ++ [c]) q

theorem parseCsvLine_quoted (s rest : String) (hs : ∀ c ∈ s.data, c ≠ '"') :
    parseCsvLine ("\"" ++ s ++ "\"," ++ rest) = jsTrim s :: parseCsvLine rest := by
  unfold parseCsvLine
  have hdata : ("\"" ++ s ++ "\"," ++ rest).data =
      '"' :: (s.data ++ ('"' :: ',' :: rest.data)) := by
    simp only [String.data_append]
    simp [List.append_assoc]
  rw [hdata]
  rw [List.foldl_cons,
      show csvStep ([], [], false) '"' = (([] : List String), ([] : List Char), true) from by
        simp [csvStep]]
  rw [List.foldl_append]
  rw [csvStep_quiet s.data [] [] hs]
  simp only [List.nil_append]
  rw [List.foldl_cons,
      show csvStep ([], s.data, true) '"' = (([] : List String), s.data, false) from by
        simp [csvStep]]
  rw [List.foldl_cons,
      show csvStep ([], s.data, false) ',' =
        ([jsTrim (String.mk s.data)], ([] : List Char), false) from by simp [csvStep]]
  rw [csvFold_res_append rest.data [jsTrim (String.mk s.data)] [] false]
  rfl

/-- C9.  `parseCsv` keeps, in input order, exactly the data rows whose
parsed field count equals the header's, as header-to-field associations,
silently dropping the rest; and inside `parseCsvLine` an unescaped quote
toggles quote state so that a quoted field may contain the delimiter
without being split. -/
theorem parseCsv_spec :
    (∀ (content header : String) (rest : List String),
      (jsSplitOn content "\n").filter (fun l => jsTrim l ≠ "") = header :: rest →
      parseCsv content =
        (rest.filter fun l => (parseCsvLine l).length = (parseCsvLine header).length).map
          fun l => (parseCsvLine header).zip (parseCsvLine l)) ∧
    (∀ s rest : String, (∀ c ∈ s.data, c ≠ '"') →
      parseCsvLine ("\"" ++ s ++ "\"," ++ rest) = jsTrim s :: parseCsvLine rest) := by
  constructor
  · intro content header rest hlines
    simp only [parseCsv]
    rw [hlines]
    dsimp only
    rw [csv_fold_filterMap]
    simp
  · exact parseCsvLine_quoted

/-- C9 witness: a malformed row is dropped while well-formed rows map
header names to fields in order, and a quoted field keeps its comma. -/
theorem parseCsv_spec_witness :
    parseCsv "a,b\n1,2\nbad\n3,4" = [[("a", "1"), ("b", "2")], [("a", "3"), ("b", "4")]] ∧
    parseCsvLine "\"x,y\",z" = ["x,y", "z"] := by
  constructor
  · rw [parseCsv_spec.1 "a,b\n1,2\nbad\n3,4" "a,b" ["1,2", "bad", "3,4"] (by decide)]
    decide
  · have h := parseCsv_spec.2 "x,y" "z" (by decide)
    rw [show ("\"" ++ "x,y" ++ "\"," ++ "z" : String) = "\"x,y\",z" from by decide] at h
    rw [h]
    decide

/-! ## Analytics accounting -/

theorem bfind_updateBucket (acc : List (String × SurfaceStats)) (s0 s : String) (w : Bool) :
    bfind (updateBucket acc s0 w) s =
      if s = s0 then
        match bfind acc s0 with
        | some st => some
            { st with
              wins := st.wins + (if w then 1 else 0)
              losses := st.losses + (if w then 0 else 1)
              totalMatches := st.totalMatches + 1 }
        | none => some
            { wins := if w then 1 else 0
              losses := if w then 0 else 1
              totalMatches := 1
              winPercentage := 0 }
      else bfind acc s := by
  induction acc with
  | nil =>
    by_cases h : s = s0
    · subst h
      simp [updateBucket, bfind, List.find?]
    · have hb : (s0 == s) = false := beq_eq_false_iff_ne.mpr fun hc => h hc.symm
      simp [updateBucket, bfind, List.find?, hb, if_neg h]
  | cons e tl ih =>
    by_cases he : e.1 = s0
    · by_cases h : s = s0
      · subst h
        have hb : (e.1 == s) = true := beq_iff_eq.mpr he
        simp [updateBucket, if_pos he, bfind, List.find?, hb, he]
      · have hb : (s0 == s) = false := beq_eq_false_iff_ne.mpr fun hc => h hc.symm
        have hb2 : (e.1 == s) = false := beq_eq_false_iff_ne.mpr fun hc => h (he ▸ hc).symm
        simp [updateBucket, if_pos he, bfind, List.find?, hb, hb2, if_neg h]
    · by_cases hs : e.1 = s
      · have h : ¬(s = s0) := fun hc => he (by rw [hs, hc])
        have hb : (e.1 == s) = true := beq_iff_eq.mpr hs
        simp [updateBucket, if_neg he, bfind, List.find?, hb, if_neg h]
      · have hb : (e.1 == s) = false := beq_eq_false_iff_ne.mpr hs
        simp only [updateBucket, if_neg he]
        have hfind : bfind ((e :: updateBucket tl s0 w) : List (String × SurfaceStats)) s =
            bfind (updateBucket tl s0 w) s := by
          simp [bfind, List.find?, hb]
        have hfind2 : bfind ((e :: tl) : List (String × SurfaceStats)) s = bfind tl s := by
          simp [bfind, List.find?, hb]
        rw [hfind, ih]
        by_cases h : s = s0
        · subst h
          rw [hfind2]
        · rw [if_neg h, if_neg h, hfind2]

theorem keys_updateBucket (acc : List (String × SurfaceStats)) (s0 : String) (w : Bool) :
    (updateBucket acc s0 w).map Prod.fst =
      if s0 ∈ acc.map Prod.fst then acc.map Prod.fst else acc.map Prod.fst ++ [s0] := by
  induction acc with
  | nil => simp [updateBucket]
  | cons e tl ih =>
    by_cases he : e.1 = s0
    · simp [updateBucket, if_pos he, he]
    · simp only [updateBucket, if_neg he, List.map_cons, ih]
      by_cases hm : s0 ∈ tl.map Prod.fst
      · simp [hm, he]
      · have hne : ¬ s0 = e.1 := fun hc => he hc.symm
        simp [hm, hne]

theorem nodup_keys_updateBucket (acc : List (String × SurfaceStats)) (s0 : String) (w : Bool)
    (h : (acc.map Prod.fst).Nodup) : ((updateBucket acc s0 w).map Prod.fst).Nodup := by
  rw [keys_updateBucket]
  split_ifs with hm
  · exact h
  · simp [List.nodup_append, h, hm]

theorem mem_keys_updateBucket (acc : List (String × SurfaceStats)) (s0 : String) (w : Bool)
    (s : String) :
    s ∈ (updateBucket acc s0 w).map Prod.fst ↔ s ∈ acc.map Prod.fst ∨ s = s0 := by
  rw [keys_updateBucket]
  split_ifs with hm
  · constructor
    · exact Or.inl
    · rintro (h | rfl)
      · exact h
      · exact hm
  · simp

theorem nodup_keys_build (rows : List AtpMatchRow) (pid : String)
    (acc : List (String × SurfaceStats)) (h : (acc.map Prod.fst).Nodup) :
    ((rows.foldl (fun acc m => updateBucket acc m.surface (m.winner_id = pid)) acc).map
      Prod.fst).Nodup := by
  induction rows generalizing acc with
  | nil => simpa
  | cons m t ih => exact ih _ (nodup_keys_updateBucket _ _ _ h)

theorem mem_keys_build (rows : List AtpMatchRow) (pid : String)
    (acc : List (String × SurfaceStats)) (s : String) :
    s ∈ ((rows.foldl (fun acc m => updateBucket acc m.surface (m.winner_id = pid)) acc).map
        Prod.fst) ↔
      s ∈ acc.map Prod.fst ∨ s ∈ rows.map AtpMatchRow.surface := by
  induction rows generalizing acc with
  | nil => simp
  | cons m t ih =>
    simp only [List.foldl_cons, ih, mem_keys_updateBucket, List.map_cons, List.mem_cons]
    tauto

theorem filter_length_split (l : List AtpMatchRow) (p q : AtpMatchRow → Bool) :
    (l.filter fun m => p m && q m).length + (l.filter fun m => p m && !(q m)).length
      = (l.filter p).length := by
  induction l with
  | nil => simp
  | cons m t ih =>
    by_cases hp : p m
    · by_cases hq : q m
      · simp only [List.filter_cons, hp, hq]
        simp
        omega
      · simp only [List.filter_cons, hp, Bool.not_eq_true] at *
        simp [List.filter_cons, hp, hq]
        omega
    · simp [List.filter_cons, hp, ih]

theorem bfind_of_mem (acc : List (String × SurfaceStats))
    (h : (acc.map Prod.fst).Nodup) (p : String × SurfaceStats) (hp : p ∈ acc) :
    bfind acc p.1 = some p.2 := by
  induction acc with
  | nil => cases hp
  | cons e tl ih =>
    rcases List.mem_cons.mp hp with rfl | hmem
    · simp [bfind, List.find?]
    · rw [List.map_cons] at h
      have hnd := List.nodup_cons.mp h
      have hne : e.1 ≠ p.1 := by
        intro hc
        exact hnd.1 (hc ▸ List.mem_map_of_mem Prod.fst hmem)
      have hb : (e.1 == p.1) = false := beq_eq_false_iff_ne.mpr hne
      simp only [bfind, List.find?, hb]
      exact ih hnd.2 hmem

theorem bfind_build (rows : List AtpMatchRow) (pid : String)
    (acc : List (String × SurfaceStats)) (s : String) :
    bfind (rows.foldl (fun acc m => updateBucket acc m.surface (m.winner_id = pid)) acc) s =
      match bfind acc s with
      | some st => some
          { st with
            wins := st.wins + (rows.filter fun m => m.surface == s && m.winner_id == pid).length
            losses := st.losses +
              (rows.filter fun m => m.surface == s && !(m.winner_id == pid)).length
            totalMatches := st.totalMatches + (rows.filter fun m => m.surface == s).length }
      | none =>
        if (rows.filter fun m => m.surface == s).length = 0 then none
        else some
          { wins := (rows.filter fun m => m.surface == s && m.winner_id == pid).length
            losses := (rows.filter fun m => m.surface == s && !(m.winner_id == pid)).length
            totalMatches := (rows.filter fun m => m.surface == s).length
            winPercentage := 0 } := by
  induction rows generalizing acc with
  | nil =>
    cases hb : bfind acc s with
    | some st => simp [hb]
    | none => simp [hb]
  | cons m t ih =>
    simp only [List.foldl_cons]
    rw [ih (updateBucket acc m.surface (m.winner_id = pid))]
    by_cases hsurf : s = m.surface
    · subst hsurf
      have hpred : (m.surface == m.surface) = true := by simp
      rw [bfind_updateBucket, if_pos rfl]
      cases hb : bfind acc m.surface with
      | some st =>
        by_cases hw : m.winner_id = pid
        · have hwb : (m.winner_id == pid) = true := beq_iff_eq.mpr hw
          simp only [List.filter_cons, hpred, hwb, hw]
          simp [SurfaceStats.mk.injEq]
          omega
        · have hwb : (m.winner_id == pid) = false := beq_eq_false_iff_ne.mpr hw
          simp only [List.filter_cons, hpred, hwb, hw]
          simp [SurfaceStats.mk.injEq, hw]
          omega
      | none =>
        by_cases hw : m.winner_id = pid
        · have hwb : (m.winner_id == pid) = true := beq_iff_eq.mpr hw
          simp only [List.filter_cons, hpred, hwb, hw]
          simp [SurfaceStats.mk.injEq]
          omega
        · have hwb : (m.winner_id == pid) = false := beq_eq_false_iff_ne.mpr hw
          simp only [List.filter_cons, hpred, hwb, hw]
          simp [SurfaceStats.mk.injEq, hw]
          omega
    · have hpred : (m.surface == s) = false := beq_eq_false_iff_ne.mpr fun hc => hsurf hc.symm
      rw [bfind_updateBucket, if_neg hsurf]
      simp only [List.filter_cons, hpred, Bool.false_and, if_false]
      rfl

/-- C10.  `analyzeSurfacePerformance` buckets every input row by surface
(bucket keys are exactly the surfaces seen, without duplicates), counts a
row as a win exactly when its `winner_id` equals the requested player id
and as a loss otherwise — rows where the player appears as neither winner
nor loser included — so that per bucket wins + losses = totalMatches and
winPercentage = wins / totalMatches * 100 (0 for an empty bucket, which
never actually occurs). -/
theorem analyzeSurfacePerformance_accounting (rows : List AtpMatchRow) (pid : String) :
    ((analyzeSurfacePerformance rows pid).map Prod.fst).Nodup ∧
    (∀ s : String,
      s ∈ (analyzeSurfacePerformance rows pid).map Prod.fst ↔
        s ∈ rows.map AtpMatchRow.surface) ∧
    (∀ p ∈ analyzeSurfacePerformance rows pid,
      p.2.wins = (rows.filter fun m => m.surface == p.1 && m.winner_id == pid).length ∧
      p.2.losses = (rows.filter fun m => m.surface == p.1 && !(m.winner_id == pid)).length ∧
      p.2.wins + p.2.losses = p.2.totalMatches ∧
      p.2.winPercentage = if p.2.totalMatches = 0 then 0
        else (p.2.wins : ℚ) / (p.2.totalMatches : ℚ) * 100) := by
  have hkeys : (analyzeSurfacePerformance rows pid).map Prod.fst =
      ((rows.foldl (fun acc m => updateBucket acc m.surface (m.winner_id = pid)) []).map
        Prod.fst) := by
    simp only [analyzeSurfacePerformance, List.map_map]
    rfl
  have hnd : (((rows.foldl (fun acc m => updateBucket acc m.surface (m.winner_id = pid)) [])
      : List (String × SurfaceStats)).map Prod.fst).Nodup :=
    nodup_keys_build rows pid [] (by simp)
  refine ⟨?_, ?_, ?_⟩
  · rw [hkeys]
    exact hnd
  · intro s
    rw [hkeys]
    simpa using mem_keys_build rows pid [] s
  · intro p hp
    simp only [analyzeSurfacePerformance] at hp
    obtain ⟨q, hq, rfl⟩ := List.mem_map.mp hp
    have hfind := bfind_of_mem _ hnd q hq
    rw [bfind_build rows pid [] q.1] at hfind
    rw [show bfind ([] : List (String × SurfaceStats)) q.1 = none from rfl] at hfind
    dsimp only at hfind
    by_cases h0 : (rows.filter fun m => m.surface == q.1).length = 0
    · rw [if_pos h0] at hfind
      exact absurd hfind (by simp)
    · rw [if_neg h0] at hfind
      have hq2 := Option.some.inj hfind
      dsimp only
      refine ⟨?_, ?_, ?_, ?_⟩
      · rw [← hq2]
      · rw [← hq2]
      · rw [← hq2]
        exact filter_length_split rows _ _
      · rw [← hq2]
        dsimp only
        rw [if_pos (Nat.pos_of_ne_zero h0), if_neg h0]

/-- C10 witness at a concrete history: three rows (two Hard, one Clay; the
player wins one Hard row and appears in neither side of the Clay row);
the Hard bucket satisfies the counting and percentage equations. -/
theorem analyzeSurfacePerformance_accounting_witness :
    ("Hard", ({ wins := 1, losses := 1, totalMatches := 2, winPercentage := 50 }
        : SurfaceStats)).2.wins =
      (([⟨"Hard", "p1", "p2"⟩, ⟨"Hard", "p3", "p1"⟩, ⟨"Clay", "p9", "p8"⟩] :
          List AtpMatchRow).filter
        fun m => m.surface == "Hard" && m.winner_id == "p1").length ∧
    ("Hard", ({ wins := 1, losses := 1, totalMatches := 2, winPercentage := 50 }
        : SurfaceStats)).2.losses =
      (([⟨"Hard", "p1", "p2"⟩, ⟨"Hard", "p3", "p1"⟩, ⟨"Clay", "p9", "p8"⟩] :
          List AtpMatchRow).filter
        fun m => m.surface == "Hard" && !(m.winner_id == "p1")).length ∧
    (1 : Nat) + 1 = 2 ∧
    (50 : ℚ) = if (2 : Nat) = 0 then 0 else ((1 : Nat) : ℚ) / ((2 : Nat) : ℚ) * 100 :=
  (analyzeSurfacePerformance_accounting
    [⟨"Hard", "p1", "p2"⟩, ⟨"Hard", "p3", "p1"⟩, ⟨"Clay", "p9", "p8"⟩] "p1").2.2
    ("Hard", { wins := 1, losses := 1, totalMatches := 2, winPercentage := 50 })
    (by simp [analyzeSurfacePerformance, updateBucket]
        norm_num)
